import Mathlib

/-!
Shallow embedding of `src/imodels/clustering/stableclustering.py`
(`class StableClustering`), together with theorems checking the
natural-language specification of the repository against the code.

Modelling conventions:
  * Python floats are modelled by `ℚ`; the single NaN that can arise
    (`np.mean([])`) is modelled by `Option ℚ` with `none` for NaN.
  * The external collaborators (`KMeans.fit_predict`, `rand_score`,
    `adjusted_rand_score`, the fitted model's `predict`) are abstract
    deterministic functions collected in an `Oracle`; the dataset type is
    an arbitrary type `α`.
  * Python exceptions are values of `Err`; a `fit` call returns the
    mutated estimator state, the number of `fit_predict` calls performed
    (clustering work), and an optional raised error.
  * The Python dict `self.scores_` is an insertion-ordered association
    list; updating an existing key replaces its value in place.
  * Python instance attributes assigned so far are tracked in `attrs`
    (needed because `predict` uses `check_is_fitted(self, ["best_model"])`,
    which is a `hasattr` test).
-/

namespace StableClustering

/-- A partition of the dataset: one integer cluster label per row. -/
abbrev Partition := List Nat

/-- Errors the Python code can raise (plus `invalidConfiguration`, which the
spec names but the code never raises). `attributeError` models Python's
`AttributeError` on `None.fit(X)` / `None.predict(X)`. -/
inductive Err where
  | invalidAlgorithm
  | invalidMetric
  | invalidConfiguration
  | notFittedError
  | attributeError
deriving DecidableEq

/-- An unfitted `KMeans(...)` instance: records its constructor arguments. -/
structure KMeansModel where
  n_clusters : Nat
  random_state : Nat
deriving DecidableEq

/-- A clustering model after `.fit(X)`: the instance parameters together with
the dataset it was fitted on. -/
structure FittedModel (α : Type) where
  model : KMeansModel
  data : α
deriving DecidableEq

/-- The external collaborators, as abstract deterministic functions:
`kmeans X k seed` is `KMeans(n_clusters=k, random_state=seed).fit_predict(X)`;
the two score functions are `sklearn.metrics.rand_score` and
`adjusted_rand_score`; `model_predict m X` is `m.predict(X)`. -/
structure Oracle (α : Type) where
  kmeans : α → Nat → Nat → Partition
  rand_score : Partition → Partition → ℚ
  adjusted_rand_score : Partition → Partition → ℚ
  model_predict : FittedModel α → α → List Nat

/-- The estimator's instance state: the `__init__` parameters, the mutable
attributes, and the list of attribute names assigned so far. -/
structure Estimator (α : Type) where
  k_values : List Nat
  n_repetitions : Nat
  algorithm : String
  metric : String
  random_state : Nat
  scores_ : List (Nat × Option ℚ)
  attrs : List String
  best_k_ : Option Nat
  best_model_ : Option (FittedModel α)
deriving DecidableEq

/-- `StableClustering.__init__`: stores the parameters and creates the empty
score dict `self.scores_ = {}`. -/
def init {α : Type} (k_values : List Nat) (n_repetitions : Nat)
    (algorithm metric : String) (random_state : Nat) : Estimator α :=
  { k_values := k_values
    n_repetitions := n_repetitions
    algorithm := algorithm
    metric := metric
    random_state := random_state
    scores_ := []
    attrs := ["k_values", "n_repetitions", "algorithm", "metric",
              "random_state", "scores_"]
    best_k_ := none
    best_model_ := none }

/-- Python dict assignment `d[k] = v`: replace in place when the key exists
(keeping its insertion position), otherwise append a new entry. -/
def dictUpdate (d : List (Nat × Option ℚ)) (k : Nat) (v : Option ℚ) :
    List (Nat × Option ℚ) :=
  match d with
  | [] => [(k, v)]
  | (k0, v0) :: rest =>
      if k0 = k then (k, v) :: rest else (k0, v0) :: dictUpdate rest k v

/-- Record that an instance attribute has been assigned. -/
def attrsAdd (l : List String) (s : String) : List String :=
  if s ∈ l then l else l ++ [s]

/-- The inner repetitions loop of `fit`, for one candidate `k`:
`for i_rep in range(n_repetitions): ...`.  Threads the accumulated
`clusters` list, the Python local variable `model` (the most recently
constructed `KMeans` instance, possibly still unset), and the count of
`fit_predict` calls performed.  Raises `invalidAlgorithm` when
`self.algorithm` is not `"k-means"` (checked at each iteration, before any
model is built in that iteration). -/
def repsAux {α : Type} (km : α → Nat → Nat → Partition) (algorithm : String)
    (rs : Nat) (X : α) (k : Nat) :
    List Nat → List Partition → Option KMeansModel → Nat →
    (Except Err (List Partition × Option KMeansModel)) × Nat
  | [], clusters, m, nFits => (.ok (clusters, m), nFits)
  | i :: rest, clusters, _m, nFits =>
      if algorithm = "k-means" then
        repsAux km algorithm rs X k rest
          (clusters ++ [km X k (rs + i)])
          (some { n_clusters := k, random_state := rs + i })
          (nFits + 1)
      else
        (.error .invalidAlgorithm, nFits)

/-- The unordered index pairs visited by
`for i in range(n): for j in range(i+1, n)`. -/
def pairIndices (n : Nat) : List (Nat × Nat) :=
  ((List.range n).map fun i =>
    (List.range' (i + 1) (n - (i + 1))).map fun j => (i, j)).flatten

/-- The metric dispatch performed for one pair of partitions:
`rand_score` for `"rand"`, `adjusted_rand_score` for `"adjusted_rand"`,
otherwise `ValueError` (modelled `invalidMetric`). -/
def scoreOf (rand adj : Partition → Partition → ℚ) (metric : String)
    (a b : Partition) : Except Err ℚ :=
  if metric = "rand" then .ok (rand a b)
  else if metric = "adjusted_rand" then .ok (adj a b)
  else .error .invalidMetric

/-- The pairwise-score loop of `fit` for one candidate `k`: walks the index
pairs, dispatching on the metric for each pair and accumulating the scores
list. -/
def pairScoresAux (rand adj : Partition → Partition → ℚ) (metric : String)
    (clusters : List Partition) :
    List (Nat × Nat) → List ℚ → Except Err (List ℚ)
  | [], acc => .ok acc
  | (i, j) :: rest, acc =>
      match scoreOf rand adj metric (clusters.getD i []) (clusters.getD j []) with
      | .ok s => pairScoresAux rand adj metric clusters rest (acc ++ [s])
      | .error e2 => .error e2

/-- The local state of `fit`'s candidate loop: the (mutated) score dict,
the running best score / best k / retained best model, the Python local
variable `model`, and the number of clustering fits performed. -/
structure LoopState where
  scores : List (Nat × Option ℚ)
  best_score : ℚ
  best_k : Option Nat
  best_model : Option KMeansModel
  modelVar : Option KMeansModel
  nFits : Nat
deriving DecidableEq

/-- The candidate loop of `fit`: `for k in self.k_values: ...`.  For each k
it produces the repetitions, scores all unordered pairs, records
`self.scores_[k] = float(np.mean(scores))` (NaN = `none` when there are no
pairs), and updates the running best under the strict comparison
`avg_score > best_score` (false when `avg_score` is NaN).  Returns the final
loop state and the raised error, if any. -/
def fitLoop {α : Type} (o : Oracle α) (algorithm metric : String)
    (rs n_rep : Nat) (X : α) :
    List Nat → LoopState → LoopState × Option Err
  | [], st => (st, none)
  | k :: rest, st =>
      match repsAux o.kmeans algorithm rs X k (List.range n_rep) [] st.modelVar st.nFits with
      | (.error e2, n2) => ({ st with nFits := n2 }, some e2)
      | (.ok (clusters, mv), n2) =>
          match pairScoresAux o.rand_score o.adjusted_rand_score metric clusters
              (pairIndices n_rep) [] with
          | .error e2 => ({ st with modelVar := mv, nFits := n2 }, some e2)
          | .ok scores =>
              let avg : Option ℚ :=
                if scores = [] then none
                else some (scores.sum / (scores.length : ℚ))
              let st2 : LoopState :=
                { st with scores := dictUpdate st.scores k avg
                          modelVar := mv
                          nFits := n2 }
              match avg with
              | none => fitLoop o algorithm metric rs n_rep X rest st2
              | some q =>
                  if st.best_score < q then
                    fitLoop o algorithm metric rs n_rep X rest
                      { st2 with best_score := q, best_k := some k, best_model := mv }
                  else
                    fitLoop o algorithm metric rs n_rep X rest st2

/-- The initial loop state of a `fit` call: `best_k = None`,
`best_score = -1`, `best_model = None`; the score dict is the estimator's
current `self.scores_` (created once in `__init__`, never cleared). -/
def initState {α : Type} (e : Estimator α) : LoopState :=
  { scores := e.scores_
    best_score := -1
    best_k := none
    best_model := none
    modelVar := none
    nFits := 0 }

/-- The outcome of a `fit` call: the estimator state after the call
(Python leaves partial mutations visible when an exception is raised), the
number of clustering `fit_predict` calls performed, and the raised error
(`none` = `fit` returned `self`). -/
structure FitOutcome (α : Type) where
  est : Estimator α
  nFits : Nat
  err : Option Err
deriving DecidableEq

/-- `StableClustering.fit(X)`: run the candidate loop, then
`self.best_k_ = best_k` and `self.best_model_ = best_model.fit(X)` —
an `AttributeError` when `best_model` is still `None` (it is raised after
`best_k_` has been assigned). -/
def fit {α : Type} (o : Oracle α) (e : Estimator α) (X : α) : FitOutcome α :=
  match fitLoop o e.algorithm e.metric e.random_state e.n_repetitions X
      e.k_values (initState e) with
  | (st, some e2) =>
      { est := { e with scores_ := st.scores }, nFits := st.nFits, err := some e2 }
  | (st, none) =>
      let e2 : Estimator α :=
        { e with scores_ := st.scores
                 best_k_ := st.best_k
                 attrs := attrsAdd e.attrs "best_k_" }
      match st.best_model with
      | none => { est := e2, nFits := st.nFits, err := some .attributeError }
      | some m =>
          { est := { e2 with best_model_ := some { model := m, data := X }
                             attrs := attrsAdd e2.attrs "best_model_" }
            nFits := st.nFits
            err := none }

/-- `StableClustering.predict(X)`: `check_is_fitted(self, ["best_model"])`
is a `hasattr(self, "best_model")` test that raises `NotFittedError` when
the attribute is absent; then k-means delegates to
`self.best_model_.predict(X)`, and any other algorithm falls through and
returns `None` (modelled `.ok none`). -/
def predict {α : Type} (o : Oracle α) (e : Estimator α) (X : α) :
    Except Err (Option (List Nat)) :=
  if "best_model" ∈ e.attrs then
    if e.algorithm = "k-means" then
      match e.best_model_ with
      | some fm => .ok (some (o.model_predict fm X))
      | none => .error .attributeError
    else .ok none
  else .error .notFittedError

/-- Specification-side view of the repetitions produced for candidate `k`:
partitions with seeds `rs, rs+1, ..., rs+n-1`. -/
def clustersSpec {α : Type} (o : Oracle α) (X : α) (rs n k : Nat) :
    List Partition :=
  (List.range n).map fun i => o.kmeans X k (rs + i)

/-- The score function a (valid) metric name dispatches to. -/
def metricFn {α : Type} (o : Oracle α) (metric : String)
    (a b : Partition) : ℚ :=
  if metric = "rand" then o.rand_score a b else o.adjusted_rand_score a b

/-- Specification-side view of the pairwise scores for candidate `k`: one
score per unordered pair of repetitions. -/
def pairScoresSpec {α : Type} (o : Oracle α) (metric : String) (X : α)
    (rs n k : Nat) : List ℚ :=
  (pairIndices n).map fun p =>
    metricFn o metric ((clustersSpec o X rs n k).getD p.1 [])
      ((clustersSpec o X rs n k).getD p.2 [])

/-- The arithmetic mean of the pairwise scores for candidate `k`. -/
def avgSpec {α : Type} (o : Oracle α) (metric : String) (X : α)
    (rs n k : Nat) : ℚ :=
  (pairScoresSpec o metric X rs n k).sum /
    ((pairScoresSpec o metric X rs n k).length : ℚ)

/-- One step of the running-best comparison: `if avg > best: update`. -/
def bestStep (b : ℚ × Option Nat) (p : Nat × ℚ) : ℚ × Option Nat :=
  if b.1 < p.2 then (p.2, some p.1) else b

/-- The running-best fold over the per-candidate `(k, mean)` pairs. -/
def bestFold (l : List (Nat × ℚ)) (b : ℚ × Option Nat) : ℚ × Option Nat :=
  l.foldl bestStep b

/-- First-occurrence key sequence of repeated dict insertions: the keys the
score dict ends up with, in order. -/
def insKeys (acc : List Nat) (ks : List Nat) : List Nat :=
  ks.foldl (fun a k => if k ∈ a then a else a ++ [k]) acc

/-- A tiny concrete oracle used in witnesses: clustering is constant, so all
repetitions agree and every pairwise score is `1`. -/
def oracle0 : Oracle Nat :=
  { kmeans := fun _X k seed => [seed % k, 0, 1 % k]
    rand_score := fun a b => if a = b then 1 else 1 / 2
    adjusted_rand_score := fun a b => if a = b then 1 else 0
    model_predict := fun m _X => List.replicate m.model.n_clusters 0 }

/-- A concrete freshly-constructed estimator used in witnesses. -/
def e0 : Estimator Nat := init [2] 2 "k-means" "adjusted_rand" 0

/-- An estimator that has already been fitted once (on candidates `[2]`) and
whose candidate list is then changed to `[3]` before a second `fit` call. -/
def e1 : Estimator Nat :=
  { (fit oracle0 (init [2] 2 "k-means" "adjusted_rand" 0) 0).est with
      k_values := [3] }

/-! ### Helper lemmas about the loops and the score dict -/

lemma repsAux_kmeans {α : Type} (km : α → Nat → Nat → Partition) (rs : Nat)
    (X : α) (k : Nat) (l : List Nat) :
    ∀ (cs : List Partition) (m : Option KMeansModel) (n : Nat),
      repsAux km "k-means" rs X k l cs m n =
        (.ok (cs ++ l.map fun i => km X k (rs + i),
              l.foldl (fun _m i =>
                some { n_clusters := k, random_state := rs + i }) m),
         n + l.length) := by
  induction l with
  | nil => intro cs m n; simp [repsAux]
  | cons i rest ih =>
      intro cs m n
      rw [repsAux, if_pos rfl, ih]
      simp
      omega

lemma repsAux_not_kmeans {α : Type} (km : α → Nat → Nat → Partition)
    (algorithm : String) (h : algorithm ≠ "k-means") (rs : Nat) (X : α)
    (k i : Nat) (rest : List Nat) (cs : List Partition)
    (m : Option KMeansModel) (n : Nat) :
    repsAux km algorithm rs X k (i :: rest) cs m n =
      (.error .invalidAlgorithm, n) := by
  simp [repsAux, h]

lemma foldl_model_range (k rs : Nat) (m : Option KMeansModel) (n : Nat)
    (hn : 1 ≤ n) :
    (List.range n).foldl
        (fun _m i => some { n_clusters := k, random_state := rs + i }) m =
      some { n_clusters := k, random_state := rs + (n - 1) } := by
  cases n with
  | zero => omega
  | succ n => rw [List.range_succ, List.foldl_append]; simp

lemma pairScoresAux_ok (rand adj : Partition → Partition → ℚ) (metric : String)
    (hmet : metric = "rand" ∨ metric = "adjusted_rand")
    (clusters : List Partition) (l : List (Nat × Nat)) :
    ∀ acc, pairScoresAux rand adj metric clusters l acc =
      .ok (acc ++ l.map fun p =>
        if metric = "rand" then rand (clusters.getD p.1 []) (clusters.getD p.2 [])
        else adj (clusters.getD p.1 []) (clusters.getD p.2 [])) := by
  induction l with
  | nil => intro acc; simp [pairScoresAux]
  | cons p rest ih =>
      intro acc
      obtain ⟨i, j⟩ := p
      rcases hmet with h | h <;> subst h <;>
        simp [pairScoresAux, scoreOf, ih]

lemma pairScoresAux_err (rand adj : Partition → Partition → ℚ)
    (metric : String) (h1 : metric ≠ "rand") (h2 : metric ≠ "adjusted_rand")
    (clusters : List Partition) (i j : Nat) (l : List (Nat × Nat))
    (acc : List ℚ) :
    pairScoresAux rand adj metric clusters ((i, j) :: l) acc =
      .error .invalidMetric := by
  simp [pairScoresAux, scoreOf, h1, h2]

lemma list_map_range_sum (f : ℕ → ℕ) (n : ℕ) :
    ((List.range n).map f).sum = ∑ i ∈ Finset.range n, f i := by
  rw [Finset.sum, Finset.range_val, ← Multiset.coe_range, Multiset.map_coe,
    Multiset.sum_coe]

lemma pairIndices_length (n : Nat) :
    (pairIndices n).length = n * (n - 1) / 2 := by
  have h1 : (pairIndices n).length =
      ((List.range n).map fun i => n - (i + 1)).sum := by
    simp [pairIndices, List.length_flatten, List.map_map, Function.comp_def]
  rw [h1, list_map_range_sum]
  have h2 : ∑ i ∈ Finset.range n, (n - (i + 1)) =
      ∑ i ∈ Finset.range n, (n - 1 - i) :=
    Finset.sum_congr rfl fun i _ => by omega
  rw [h2,
    show ∑ i ∈ Finset.range n, (n - 1 - i) = ∑ i ∈ Finset.range n, i from
      Finset.sum_range_reflect (fun i => i) n,
    Finset.sum_range_id]

lemma pairIndices_ne_nil (n : Nat) (hn : 2 ≤ n) : pairIndices n ≠ [] := by
  intro hcon
  have h := pairIndices_length n
  rw [hcon] at h
  have h2 : 2 ≤ n * (n - 1) := by
    calc 2 = 2 * 1 := by norm_num
    _ ≤ n * (n - 1) := Nat.mul_le_mul hn (by omega)
  have h3 : 1 ≤ n * (n - 1) / 2 := (Nat.one_le_div_iff (by norm_num)).mpr h2
  simp at h
  omega

lemma pairIndices_le_one (n : Nat) (hn : n ≤ 1) : pairIndices n = [] := by
  interval_cases n <;> rfl

lemma dictUpdate_lookup_self (d : List (Nat × Option ℚ)) (k : Nat)
    (v : Option ℚ) : (dictUpdate d k v).lookup k = some v := by
  induction d with
  | nil => simp [dictUpdate]
  | cons p rest ih =>
      obtain ⟨k0, v0⟩ := p
      by_cases h : k0 = k
      · subst h; simp [dictUpdate]
      · have hb : (k == k0) = false := beq_eq_false_iff_ne.mpr (Ne.symm h)
        simp [dictUpdate, h, List.lookup_cons, hb, ih]

lemma dictUpdate_lookup_ne (d : List (Nat × Option ℚ)) (k k' : Nat)
    (v : Option ℚ) (h : k' ≠ k) :
    (dictUpdate d k v).lookup k' = d.lookup k' := by
  have hb : (k' == k) = false := beq_eq_false_iff_ne.mpr h
  induction d with
  | nil => simp [dictUpdate, List.lookup_cons, hb]
  | cons p rest ih =>
      obtain ⟨k0, v0⟩ := p
      by_cases h0 : k0 = k
      · subst h0
        simp [dictUpdate, List.lookup_cons, hb]
      · simp [dictUpdate, h0, List.lookup_cons, ih]

lemma dictUpdate_id (d : List (Nat × Option ℚ)) (k : Nat) (v : Option ℚ)
    (h : d.lookup k = some v) : dictUpdate d k v = d := by
  induction d with
  | nil => simp at h
  | cons p rest ih =>
      obtain ⟨k0, v0⟩ := p
      by_cases h0 : k0 = k
      · subst h0
        rw [List.lookup_cons_self] at h
        simp only [Option.some.injEq] at h
        simp [dictUpdate, h]
      · have hb : (k == k0) = false := beq_eq_false_iff_ne.mpr (Ne.symm h0)
        rw [List.lookup_cons, hb] at h
        simp only [dictUpdate, if_neg h0]
        rw [ih h]

lemma dictUpdate_keys (d : List (Nat × Option ℚ)) (k : Nat) (v : Option ℚ) :
    (dictUpdate d k v).map Prod.fst =
      if k ∈ d.map Prod.fst then d.map Prod.fst
      else d.map Prod.fst ++ [k] := by
  induction d with
  | nil => simp [dictUpdate]
  | cons p rest ih =>
      obtain ⟨k0, v0⟩ := p
      by_cases h0 : k0 = k
      · subst h0; simp [dictUpdate]
      · have h0' : ¬k = k0 := fun he => h0 he.symm
        simp only [dictUpdate, if_neg h0, List.map_cons, ih]
        by_cases hk : k ∈ rest.map Prod.fst <;>
          simp [hk, List.mem_cons, h0']

lemma dictUpdate_mem (d : List (Nat × Option ℚ)) (k : Nat) (v : Option ℚ)
    (p : Nat × Option ℚ) (hp : p ∈ dictUpdate d k v) :
    p ∈ d ∨ p = (k, v) := by
  induction d with
  | nil =>
      simp only [dictUpdate, List.mem_singleton] at hp
      exact .inr hp
  | cons q rest ih =>
      obtain ⟨k0, v0⟩ := q
      by_cases h0 : k0 = k
      · subst h0
        simp [dictUpdate] at hp
        rcases hp with hp1 | hp1
        · exact .inr (by simp [hp1])
        · exact .inl (List.mem_cons_of_mem _ hp1)
      · simp only [dictUpdate, if_neg h0, List.mem_cons] at hp
        rcases hp with hp1 | hp1
        · exact .inl (by simp [hp1])
        · rcases ih hp1 with h | h
          · exact .inl (List.mem_cons_of_mem _ h)
          · exact .inr h

lemma foldl_dictUpdate_lookup (f : Nat → Option ℚ) (ks : List Nat) :
    ∀ (d : List (Nat × Option ℚ)) (k : Nat),
      (ks.foldl (fun d k => dictUpdate d k (f k)) d).lookup k =
        if k ∈ ks then some (f k) else d.lookup k := by
  induction ks with
  | nil => intro d k; simp
  | cons k0 rest ih =>
      intro d k
      rw [List.foldl_cons, ih]
      by_cases hk : k ∈ rest
      · simp [hk]
      · by_cases hk0 : k = k0
        · subst hk0; simp [hk, dictUpdate_lookup_self]
        · simp [hk, hk0, dictUpdate_lookup_ne _ _ _ _ hk0]

lemma foldl_dictUpdate_keys (f : Nat → Option ℚ) (ks : List Nat) :
    ∀ d : List (Nat × Option ℚ),
      (ks.foldl (fun d k => dictUpdate d k (f k)) d).map Prod.fst =
        insKeys (d.map Prod.fst) ks := by
  induction ks with
  | nil => intro d; simp [insKeys]
  | cons k0 rest ih =>
      intro d
      rw [List.foldl_cons, ih, dictUpdate_keys]
      simp only [insKeys, List.foldl_cons]

lemma foldl_dictUpdate_mem (f : Nat → Option ℚ) (ks : List Nat) :
    ∀ (d : List (Nat × Option ℚ)) (p : Nat × Option ℚ),
      p ∈ ks.foldl (fun d k => dictUpdate d k (f k)) d →
        p ∈ d ∨ ∃ k, k ∈ ks ∧ p = (k, f k) := by
  induction ks with
  | nil => intro d p hp; exact .inl hp
  | cons k0 rest ih =>
      intro d p hp
      rw [List.foldl_cons] at hp
      rcases ih _ _ hp with h | ⟨k, hk, hpk⟩
      · rcases dictUpdate_mem _ _ _ _ h with h | h
        · exact .inl h
        · exact .inr ⟨k0, by simp, h⟩
      · exact .inr ⟨k, by simp [hk], hpk⟩

lemma foldl_dictUpdate_id (f : Nat → Option ℚ) (ks : List Nat) :
    ∀ d : List (Nat × Option ℚ), (∀ k ∈ ks, d.lookup k = some (f k)) →
      ks.foldl (fun d k => dictUpdate d k (f k)) d = d := by
  induction ks with
  | nil => intro d _; rfl
  | cons k0 rest ih =>
      intro d h
      rw [List.foldl_cons, dictUpdate_id _ _ _ (h k0 (by simp)),
        ih d fun k hk => h k (by simp [hk])]

lemma mem_attrsAdd (l : List String) (s t : String) :
    s ∈ attrsAdd l t ↔ s ∈ l ∨ s = t := by
  by_cases h : t ∈ l
  · simp only [attrsAdd, if_pos h]
    constructor
    · exact fun h1 => .inl h1
    · rintro (h1 | rfl)
      · exact h1
      · exact h
  · simp [attrsAdd, if_neg h]

lemma bestFold_append_singleton (l : List (Nat × ℚ)) (a : Nat × ℚ)
    (b : ℚ × Option Nat) :
    bestFold (l ++ [a]) b = bestStep (bestFold l b) a := by
  simp [bestFold, List.foldl_append]

/-- The running best over a nonempty list of `(k, score)` pairs, starting
from a sentinel strictly below every score: it returns the first pair
achieving the maximum score. -/
lemma bestFold_spec (l : List (Nat × ℚ)) (s : ℚ) (hl : l ≠ [])
    (hs : ∀ p ∈ l, s < p.2) :
    ∃ b l₁ l₂,
      (bestFold l (s, none)).2 = some b ∧
      l = l₁ ++ (b, (bestFold l (s, none)).1) :: l₂ ∧
      (∀ p ∈ l₁, p.2 < (bestFold l (s, none)).1) ∧
      (∀ p ∈ l, p.2 ≤ (bestFold l (s, none)).1) := by
  induction l using List.reverseRecOn with
  | nil => exact absurd rfl hl
  | append_singleton l a ih =>
      obtain ⟨pk, pv⟩ := a
      rcases eq_or_ne l [] with h | h
      · subst h
        have hspv : s < pv := hs (pk, pv) (by simp)
        refine ⟨pk, [], [], ?_, ?_, by simp, ?_⟩
        · simp [bestFold, bestStep, hspv]
        · simp [bestFold, bestStep, hspv]
        · intro p hp
          simp at hp
          simp [bestFold, bestStep, hspv, hp]
      · have hs1 : ∀ p ∈ l, s < p.2 := fun p hp => hs p (by simp [hp])
        obtain ⟨b, l₁, l₂, hb, hdec, hlt, hle⟩ := ih h hs1
        rw [bestFold_append_singleton]
        by_cases hMv : (bestFold l (s, none)).1 < pv
        · refine ⟨pk, l, [], ?_, ?_, ?_, ?_⟩
          · simp [bestStep, hMv]
          · simp [bestStep, hMv]
          · intro p hp
            simp only [bestStep, if_pos hMv]
            exact lt_of_le_of_lt (hle p hp) hMv
          · intro p hp
            simp only [bestStep, if_pos hMv]
            rcases List.mem_append.mp hp with h1 | h1
            · exact le_of_lt (lt_of_le_of_lt (hle p h1) hMv)
            · simp at h1; simp [h1]
        · refine ⟨b, l₁, l₂ ++ [(pk, pv)], ?_, ?_, ?_, ?_⟩
          · simp [bestStep, hMv, hb]
          · simp only [bestStep, if_neg hMv]
            conv_lhs => rw [hdec]
            simp
          · intro p hp
            simp only [bestStep, if_neg hMv]
            exact hlt p hp
          · intro p hp
            simp only [bestStep, if_neg hMv]
            rcases List.mem_append.mp hp with h1 | h1
            · exact hle p h1
            · simp at h1
              simp [h1, le_of_not_lt hMv]

/-- One iteration of the candidate loop, on the valid-configuration path:
all `n` repetitions are produced (`n ≥ 1`), the mean over the (nonempty,
`n ≥ 2`) pair list is `avgSpec`, and the running best is updated under the
strict comparison. -/
lemma fitLoop_cons_kmeans {α : Type} (o : Oracle α) (metric : String)
    (hmet : metric = "rand" ∨ metric = "adjusted_rand") (rs n : Nat)
    (hn : 2 ≤ n) (X : α) (k : Nat) (rest : List Nat) (st : LoopState) :
    fitLoop o "k-means" metric rs n X (k :: rest) st =
      fitLoop o "k-means" metric rs n X rest
        (if st.best_score < avgSpec o metric X rs n k then
          { scores := dictUpdate st.scores k (some (avgSpec o metric X rs n k))
            best_score := avgSpec o metric X rs n k
            best_k := some k
            best_model := some { n_clusters := k, random_state := rs + (n - 1) }
            modelVar := some { n_clusters := k, random_state := rs + (n - 1) }
            nFits := st.nFits + n }
        else
          { scores := dictUpdate st.scores k (some (avgSpec o metric X rs n k))
            best_score := st.best_score
            best_k := st.best_k
            best_model := st.best_model
            modelVar := some { n_clusters := k, random_state := rs + (n - 1) }
            nFits := st.nFits + n }) := by
  have hne : pairIndices n ≠ [] := pairIndices_ne_nil n hn
  simp only [fitLoop]
  rw [repsAux_kmeans, foldl_model_range k rs st.modelVar n (by omega)]
  simp only [List.nil_append, List.length_range]
  rw [pairScoresAux_ok _ _ _ hmet]
  simp only [List.nil_append]
  simp only [avgSpec, pairScoresSpec, clustersSpec, metricFn]
  rw [if_neg (by simp [hne])]
  split
  · next heq => simp at heq
  · next q heq =>
      rw [Option.some.injEq] at heq
      subst heq
      rw [apply_ite (fitLoop o "k-means" metric rs n X rest)]

/-- Full characterisation of the candidate loop on the valid-configuration
path: no error, the score dict accumulates `avgSpec` per candidate, the
running best is the `bestStep` fold, the retained best model is the last
repetition's instance at the best k, and exactly `|ks| * n` clustering fits
are performed. -/
lemma fitLoop_spec {α : Type} (o : Oracle α) (metric : String)
    (hmet : metric = "rand" ∨ metric = "adjusted_rand") (rs n : Nat)
    (hn : 2 ≤ n) (X : α) (ks : List Nat) :
    ∀ st : LoopState,
      st.best_model = st.best_k.map
        (fun b => { n_clusters := b, random_state := rs + (n - 1) }) →
      (fitLoop o "k-means" metric rs n X ks st).2 = none ∧
      (fitLoop o "k-means" metric rs n X ks st).1.scores =
        ks.foldl (fun d k =>
          dictUpdate d k (some (avgSpec o metric X rs n k))) st.scores ∧
      (fitLoop o "k-means" metric rs n X ks st).1.best_score =
        (bestFold (ks.map fun k => (k, avgSpec o metric X rs n k))
          (st.best_score, st.best_k)).1 ∧
      (fitLoop o "k-means" metric rs n X ks st).1.best_k =
        (bestFold (ks.map fun k => (k, avgSpec o metric X rs n k))
          (st.best_score, st.best_k)).2 ∧
      (fitLoop o "k-means" metric rs n X ks st).1.best_model =
        ((fitLoop o "k-means" metric rs n X ks st).1.best_k).map
          (fun b => { n_clusters := b, random_state := rs + (n - 1) }) ∧
      (fitLoop o "k-means" metric rs n X ks st).1.nFits =
        st.nFits + ks.length * n := by
  induction ks with
  | nil =>
      intro st hst
      refine ⟨rfl, rfl, ?_, ?_, ?_, ?_⟩ <;> simp [fitLoop, bestFold, hst]
  | cons k rest ih =>
      intro st hst
      rw [fitLoop_cons_kmeans o metric hmet rs n hn X k rest st]
      by_cases hb : st.best_score < avgSpec o metric X rs n k
      · rw [if_pos hb]
        obtain ⟨i1, i2, i3, i4, i5, i6⟩ := ih
          { scores := dictUpdate st.scores k (some (avgSpec o metric X rs n k))
            best_score := avgSpec o metric X rs n k
            best_k := some k
            best_model := some { n_clusters := k, random_state := rs + (n - 1) }
            modelVar := some { n_clusters := k, random_state := rs + (n - 1) }
            nFits := st.nFits + n } rfl
        refine ⟨i1, ?_, ?_, ?_, i5, ?_⟩
        · rw [i2]
          rfl
        · rw [i3]
          simp [bestFold, List.foldl_cons, bestStep, hb]
        · rw [i4]
          simp [bestFold, List.foldl_cons, bestStep, hb]
        · rw [i6]
          simp [List.length_cons]
          ring
      · rw [if_neg hb]
        obtain ⟨i1, i2, i3, i4, i5, i6⟩ := ih
          { scores := dictUpdate st.scores k (some (avgSpec o metric X rs n k))
            best_score := st.best_score
            best_k := st.best_k
            best_model := st.best_model
            modelVar := some { n_clusters := k, random_state := rs + (n - 1) }
            nFits := st.nFits + n } hst
        refine ⟨i1, ?_, ?_, ?_, i5, ?_⟩
        · rw [i2]
          rfl
        · rw [i3]
          simp [bestFold, List.foldl_cons, bestStep, hb]
        · rw [i4]
          simp [bestFold, List.foldl_cons, bestStep, hb]
        · rw [i6]
          simp [List.length_cons]
          ring

/-- The candidate loop when there are no repetition pairs (`n ≤ 1`): no
error is raised (for `n = 0` not even the algorithm name is inspected),
`NaN` (`none`) is recorded for every candidate, and the running best never
moves. -/
lemma fitLoop_no_pairs {α : Type} (o : Oracle α) (algorithm metric : String)
    (rs n : Nat) (hn : n ≤ 1) (halg : n = 0 ∨ algorithm = "k-means") (X : α)
    (ks : List Nat) :
    ∀ st : LoopState,
      (fitLoop o algorithm metric rs n X ks st).2 = none ∧
      (fitLoop o algorithm metric rs n X ks st).1.scores =
        ks.foldl (fun d k => dictUpdate d k none) st.scores ∧
      (fitLoop o algorithm metric rs n X ks st).1.best_score = st.best_score ∧
      (fitLoop o algorithm metric rs n X ks st).1.best_k = st.best_k ∧
      (fitLoop o algorithm metric rs n X ks st).1.best_model = st.best_model ∧
      (fitLoop o algorithm metric rs n X ks st).1.nFits =
        st.nFits + ks.length * n := by
  have hpi : pairIndices n = [] := pairIndices_le_one n hn
  induction ks with
  | nil => intro st; simp [fitLoop]
  | cons k rest ih =>
      intro st
      have hstep : fitLoop o algorithm metric rs n X (k :: rest) st =
          fitLoop o algorithm metric rs n X rest
            { st with scores := dictUpdate st.scores k none
                      modelVar := (if n = 0 then st.modelVar else
                        some { n_clusters := k, random_state := rs + (n - 1) })
                      nFits := st.nFits + n } := by
        rcases halg with h0 | hk
        · subst h0
          simp only [fitLoop, List.range_zero, repsAux, hpi, pairScoresAux]
          rfl
        · subst hk
          interval_cases n
          · simp only [fitLoop, List.range_zero, repsAux, hpi, pairScoresAux]
            rfl
          · simp only [fitLoop]
            rw [repsAux_kmeans, foldl_model_range _ _ _ _ (by omega)]
            simp only [List.nil_append, List.length_range, hpi]
            simp only [pairScoresAux]
            rfl
      rw [hstep]
      obtain ⟨i1, i2, i3, i4, i5, i6⟩ := ih _
      refine ⟨i1, ?_, by rw [i3], by rw [i4], by rw [i5], ?_⟩
      · rw [i2]
        simp [List.foldl_cons]
      · rw [i6]
        simp [List.length_cons]
        ring

/-- An unsupported algorithm name raises at the first repetition of the
first candidate, before any clustering fit. -/
lemma fitLoop_invalid_algorithm {α : Type} (o : Oracle α)
    (algorithm metric : String) (halg : algorithm ≠ "k-means") (rs n : Nat)
    (hn : 1 ≤ n) (X : α) (k : Nat) (rest : List Nat) (st : LoopState) :
    fitLoop o algorithm metric rs n X (k :: rest) st =
      (st, some .invalidAlgorithm) := by
  have hr : List.range n ≠ [] := by
    simp only [ne_eq, List.range_eq_nil]
    omega
  obtain ⟨i, l, hil⟩ := List.exists_cons_of_ne_nil hr
  simp only [fitLoop, hil, repsAux_not_kmeans o.kmeans algorithm halg]

/-- An unsupported metric name raises at the first pair of the first
candidate — after that candidate's `n` clustering fits have already been
performed. -/
lemma fitLoop_invalid_metric {α : Type} (o : Oracle α) (metric : String)
    (h1 : metric ≠ "rand") (h2 : metric ≠ "adjusted_rand") (rs n : Nat)
    (hn : 2 ≤ n) (X : α) (k : Nat) (rest : List Nat) (st : LoopState) :
    fitLoop o "k-means" metric rs n X (k :: rest) st =
      ({ st with
          modelVar := some { n_clusters := k, random_state := rs + (n - 1) }
          nFits := st.nFits + n }, some .invalidMetric) := by
  obtain ⟨p, l, hpl⟩ :=
    List.exists_cons_of_ne_nil (pairIndices_ne_nil n hn)
  obtain ⟨i, j⟩ := p
  simp only [fitLoop]
  rw [repsAux_kmeans, foldl_model_range _ _ _ _ (by omega)]
  simp only [List.nil_append, List.length_range, hpl,
    pairScoresAux_err _ _ _ h1 h2]

/-- The score dict is only ever updated at keys from the candidate list:
any other key's lookup is unchanged by the loop, whatever path (including
error paths) it takes. -/
lemma fitLoop_lookup_not_mem {α : Type} (o : Oracle α)
    (algorithm metric : String) (rs n : Nat) (X : α) (ks : List Nat) :
    ∀ (st : LoopState) (k : Nat), k ∉ ks →
      ((fitLoop o algorithm metric rs n X ks st).1.scores).lookup k =
        st.scores.lookup k := by
  induction ks with
  | nil => intro st k _; rfl
  | cons k0 rest ih =>
      intro st k hk
      have hk0 : k ≠ k0 := by
        intro he
        exact hk (by simp [he])
      have hkr : k ∉ rest := fun he => hk (by simp [he])
      rw [fitLoop]
      rcases hreps : repsAux o.kmeans algorithm rs X k0 (List.range n) []
          st.modelVar st.nFits with ⟨res, n2⟩
      cases res with
      | error e2 => simp
      | ok pr =>
          obtain ⟨clusters, mv⟩ := pr
          cases hps : pairScoresAux o.rand_score o.adjusted_rand_score metric
              clusters (pairIndices n) [] with
          | error e2 => simp [hps]
          | ok scores =>
              simp only [hps]
              by_cases hsc : scores = []
              · rw [if_pos hsc]
                rw [ih _ _ hkr]
                exact dictUpdate_lookup_ne _ _ _ _ hk0
              · rw [if_neg hsc]
                split
                · next heq => simp at heq
                · next q heq =>
                    rw [Option.some.injEq] at heq
                    subst heq
                    by_cases hbs : st.best_score < scores.sum / (scores.length : ℚ)
                    · rw [if_pos hbs, ih _ _ hkr]
                      exact dictUpdate_lookup_ne _ _ _ _ hk0
                    · rw [if_neg hbs, ih _ _ hkr]
                      exact dictUpdate_lookup_ne _ _ _ _ hk0

lemma fit_eq_of_loop_err {α : Type} (o : Oracle α) (e : Estimator α) (X : α)
    (st : LoopState) (er : Err)
    (hfl : fitLoop o e.algorithm e.metric e.random_state e.n_repetitions X
      e.k_values (initState e) = (st, some er)) :
    fit o e X =
      { est := { e with scores_ := st.scores }, nFits := st.nFits,
        err := some er } := by
  simp only [fit, hfl]

lemma fit_eq_of_loop_none_none {α : Type} (o : Oracle α) (e : Estimator α)
    (X : α) (st : LoopState)
    (hfl : fitLoop o e.algorithm e.metric e.random_state e.n_repetitions X
      e.k_values (initState e) = (st, none))
    (hbm : st.best_model = none) :
    fit o e X =
      { est := { e with scores_ := st.scores
                        best_k_ := st.best_k
                        attrs := attrsAdd e.attrs "best_k_" }
        nFits := st.nFits
        err := some .attributeError } := by
  simp only [fit, hfl, hbm]

lemma fit_eq_of_loop_none_some {α : Type} (o : Oracle α) (e : Estimator α)
    (X : α) (st : LoopState) (m : KMeansModel)
    (hfl : fitLoop o e.algorithm e.metric e.random_state e.n_repetitions X
      e.k_values (initState e) = (st, none))
    (hbm : st.best_model = some m) :
    fit o e X =
      { est := { e with scores_ := st.scores
                        best_k_ := st.best_k
                        best_model_ := some { model := m, data := X }
                        attrs :=
                          attrsAdd (attrsAdd e.attrs "best_k_") "best_model_" }
        nFits := st.nFits
        err := none } := by
  simp only [fit, hfl, hbm]

/-- `fit` never assigns an attribute named `best_model`: it only adds
`best_k_` and `best_model_` (note the trailing underscores). -/
lemma fit_attrs_no_best_model {α : Type} (o : Oracle α) (e : Estimator α)
    (X : α) (h : "best_model" ∉ e.attrs) :
    "best_model" ∉ (fit o e X).est.attrs := by
  rcases hfl : fitLoop o e.algorithm e.metric e.random_state e.n_repetitions X
      e.k_values (initState e) with ⟨st, err⟩
  cases err with
  | some er =>
      rw [fit_eq_of_loop_err o e X st er hfl]
      exact h
  | none =>
      cases hbm : st.best_model with
      | none =>
          rw [fit_eq_of_loop_none_none o e X st hfl hbm]
          intro hmem
          have hmem2 : "best_model" ∈ attrsAdd e.attrs "best_k_" := hmem
          rw [mem_attrsAdd] at hmem2
          rcases hmem2 with h1 | h1
          · exact h h1
          · exact absurd h1 (by decide)
      | some m =>
          rw [fit_eq_of_loop_none_some o e X st m hfl hbm]
          intro hmem
          have hmem2 : "best_model" ∈
              attrsAdd (attrsAdd e.attrs "best_k_") "best_model_" := hmem
          rw [mem_attrsAdd, mem_attrsAdd] at hmem2
          rcases hmem2 with (h1 | h1) | h1
          · exact h h1
          · exact absurd h1 (by decide)
          · exact absurd h1 (by decide)

/-- `fit` does not change the constructor parameters. -/
lemma fit_config {α : Type} (o : Oracle α) (e : Estimator α) (X : α) :
    (fit o e X).est.k_values = e.k_values ∧
    (fit o e X).est.n_repetitions = e.n_repetitions ∧
    (fit o e X).est.algorithm = e.algorithm ∧
    (fit o e X).est.metric = e.metric ∧
    (fit o e X).est.random_state = e.random_state := by
  rcases hfl : fitLoop o e.algorithm e.metric e.random_state e.n_repetitions X
      e.k_values (initState e) with ⟨st, err⟩
  cases err with
  | some er =>
      rw [fit_eq_of_loop_err o e X st er hfl]
      exact ⟨rfl, rfl, rfl, rfl, rfl⟩
  | none =>
      cases hbm : st.best_model with
      | none =>
          rw [fit_eq_of_loop_none_none o e X st hfl hbm]
          exact ⟨rfl, rfl, rfl, rfl, rfl⟩
      | some m =>
          rw [fit_eq_of_loop_none_some o e X st m hfl hbm]
          exact ⟨rfl, rfl, rfl, rfl, rfl⟩

/-- Characterisation of a `fit` call on the valid-configuration path. -/
lemma fit_spec {α : Type} (o : Oracle α) (e : Estimator α) (X : α)
    (halg : e.algorithm = "k-means")
    (hmet : e.metric = "rand" ∨ e.metric = "adjusted_rand")
    (hn : 2 ≤ e.n_repetitions) :
    (fit o e X).est.scores_ =
      e.k_values.foldl (fun d k => dictUpdate d k
        (some (avgSpec o e.metric X e.random_state e.n_repetitions k)))
        e.scores_ ∧
    (fit o e X).nFits = e.k_values.length * e.n_repetitions ∧
    (fit o e X).est.best_k_ =
      (bestFold (e.k_values.map fun k =>
        (k, avgSpec o e.metric X e.random_state e.n_repetitions k))
        (-1, none)).2 ∧
    ((fit o e X).err = none ↔
      ((bestFold (e.k_values.map fun k =>
        (k, avgSpec o e.metric X e.random_state e.n_repetitions k))
        (-1, none)).2).isSome = true) ∧
    ∀ b, (bestFold (e.k_values.map fun k =>
        (k, avgSpec o e.metric X e.random_state e.n_repetitions k))
        (-1, none)).2 = some b →
      (fit o e X).est.best_model_ =
        some { model := { n_clusters := b
                          random_state :=
                            e.random_state + (e.n_repetitions - 1) }
               data := X } := by
  obtain ⟨h1, h2, h3, h4, h5, h6⟩ :=
    fitLoop_spec o e.metric hmet e.random_state e.n_repetitions hn X
      e.k_values (initState e) rfl
  rcases hfl : fitLoop o e.algorithm e.metric e.random_state e.n_repetitions X
      e.k_values (initState e) with ⟨st, err⟩
  have hfl2 := hfl
  rw [halg] at hfl2
  rw [hfl2] at h1 h2 h4 h5 h6
  have herr : err = none := h1
  subst herr
  have hsc : st.scores = e.k_values.foldl (fun d k => dictUpdate d k
      (some (avgSpec o e.metric X e.random_state e.n_repetitions k)))
      e.scores_ := h2
  have hbk : st.best_k = (bestFold (e.k_values.map fun k =>
      (k, avgSpec o e.metric X e.random_state e.n_repetitions k))
      (-1, none)).2 := h4
  have hbm : st.best_model = Option.map (fun b =>
      { n_clusters := b,
        random_state := e.random_state + (e.n_repetitions - 1) })
      st.best_k := h5
  have hnf : st.nFits = 0 + e.k_values.length * e.n_repetitions := h6
  rw [Nat.zero_add] at hnf
  rw [hbk] at hbm
  cases hB : (bestFold (e.k_values.map fun k =>
      (k, avgSpec o e.metric X e.random_state e.n_repetitions k))
      (-1, none)).2 with
  | none =>
      rw [hB] at hbm
      simp only [Option.map_none'] at hbm
      rw [fit_eq_of_loop_none_none o e X st hfl hbm]
      refine ⟨hsc, hnf, hbk.trans hB, by simp, ?_⟩
      intro b hb2
      exact absurd hb2 (by simp)
  | some b =>
      rw [hB] at hbm
      simp only [Option.map_some'] at hbm
      rw [fit_eq_of_loop_none_some o e X st _ hfl hbm]
      refine ⟨hsc, hnf, hbk.trans hB, by simp, ?_⟩
      intro b' hb2
      rw [Option.some.injEq] at hb2
      subst hb2
      rfl

/-- Characterisation of a `fit` call when no repetition pairs exist
(`n_repetitions ≤ 1`; for `n_repetitions = 0` the algorithm name is never
inspected): every candidate records NaN, no best model is selected, and the
final refit raises `AttributeError`. -/
lemma fit_no_pairs {α : Type} (o : Oracle α) (e : Estimator α) (X : α)
    (hn : e.n_repetitions ≤ 1)
    (halg : e.n_repetitions = 0 ∨ e.algorithm = "k-means") :
    (fit o e X).err = some .attributeError ∧
    (fit o e X).nFits = e.k_values.length * e.n_repetitions ∧
    (fit o e X).est.scores_ =
      e.k_values.foldl (fun d k => dictUpdate d k none) e.scores_ ∧
    (fit o e X).est.best_k_ = none := by
  obtain ⟨h1, h2, h3, h4, h5, h6⟩ :=
    fitLoop_no_pairs o e.algorithm e.metric e.random_state e.n_repetitions
      hn halg X e.k_values (initState e)
  rcases hfl : fitLoop o e.algorithm e.metric e.random_state e.n_repetitions X
      e.k_values (initState e) with ⟨st, err⟩
  rw [hfl] at h1 h2 h4 h5 h6
  have herr : err = none := h1
  subst herr
  have hbm : st.best_model = none := h5
  rw [fit_eq_of_loop_none_none o e X st hfl hbm]
  have hnf : st.nFits = 0 + e.k_values.length * e.n_repetitions := h6
  rw [Nat.zero_add] at hnf
  exact ⟨rfl, hnf, h2, h4⟩

/-- A `fit` call with an unsupported algorithm raises `invalidAlgorithm`
with zero clustering fits performed and the score dict untouched. -/
lemma fit_invalid_algorithm {α : Type} (o : Oracle α) (e : Estimator α)
    (X : α) (halg : e.algorithm ≠ "k-means") (hn : 1 ≤ e.n_repetitions)
    (k0 : Nat) (rest : List Nat) (hkv : e.k_values = k0 :: rest) :
    (fit o e X).err = some .invalidAlgorithm ∧
    (fit o e X).nFits = 0 ∧
    (fit o e X).est.scores_ = e.scores_ := by
  have hfl : fitLoop o e.algorithm e.metric e.random_state e.n_repetitions X
      e.k_values (initState e) = (initState e, some .invalidAlgorithm) := by
    rw [hkv]
    exact fitLoop_invalid_algorithm o e.algorithm e.metric halg
      e.random_state e.n_repetitions hn X k0 rest (initState e)
  rw [fit_eq_of_loop_err o e X _ _ hfl]
  exact ⟨rfl, rfl, rfl⟩

/-- A `fit` call with a supported algorithm but an unsupported metric raises
`invalidMetric` only after the first candidate's `n_repetitions` clustering
fits have been performed. -/
lemma fit_invalid_metric {α : Type} (o : Oracle α) (e : Estimator α) (X : α)
    (halg : e.algorithm = "k-means") (h1 : e.metric ≠ "rand")
    (h2 : e.metric ≠ "adjusted_rand") (hn : 2 ≤ e.n_repetitions)
    (k0 : Nat) (rest : List Nat) (hkv : e.k_values = k0 :: rest) :
    (fit o e X).err = some .invalidMetric ∧
    (fit o e X).nFits = e.n_repetitions ∧
    (fit o e X).est.scores_ = e.scores_ := by
  have hfl : fitLoop o e.algorithm e.metric e.random_state e.n_repetitions X
      e.k_values (initState e) =
      ({ initState e with
          modelVar := some { n_clusters := k0
                             random_state :=
                               e.random_state + (e.n_repetitions - 1) }
          nFits := (initState e).nFits + e.n_repetitions },
        some .invalidMetric) := by
    rw [hkv, halg]
    exact fitLoop_invalid_metric o e.metric h1 h2 e.random_state
      e.n_repetitions hn X k0 rest (initState e)
  rw [fit_eq_of_loop_err o e X _ _ hfl]
  refine ⟨rfl, ?_, rfl⟩
  simp [initState]

/-- Keys outside `k_values` are untouched by `fit`, whatever path it
takes. -/
lemma fit_lookup_not_mem {α : Type} (o : Oracle α) (e : Estimator α) (X : α)
    (k : Nat) (hk : k ∉ e.k_values) :
    ((fit o e X).est.scores_).lookup k = e.scores_.lookup k := by
  have hlk := fitLoop_lookup_not_mem o e.algorithm e.metric e.random_state
    e.n_repetitions X e.k_values (initState e) k hk
  rcases hfl : fitLoop o e.algorithm e.metric e.random_state e.n_repetitions X
      e.k_values (initState e) with ⟨st, err⟩
  rw [hfl] at hlk
  cases err with
  | some er =>
      rw [fit_eq_of_loop_err o e X st er hfl]
      exact hlk
  | none =>
      cases hbm : st.best_model with
      | none =>
          rw [fit_eq_of_loop_none_none o e X st hfl hbm]
          exact hlk
      | some m =>
          rw [fit_eq_of_loop_none_some o e X st m hfl hbm]
          exact hlk

lemma map_eq_append_cons {β γ : Type} (f : β → γ) (l : List β)
    (L₁ L₂ : List γ) (y : γ) (h : l.map f = L₁ ++ y :: L₂) :
    ∃ l₁ x l₂, l = l₁ ++ x :: l₂ ∧ l₁.map f = L₁ ∧ f x = y ∧
      l₂.map f = L₂ := by
  induction L₁ generalizing l with
  | nil =>
      cases l with
      | nil => simp at h
      | cons a t =>
          simp only [List.map_cons, List.nil_append, List.cons.injEq] at h
          exact ⟨[], a, t, rfl, rfl, h.1, h.2⟩
  | cons z L₁' ih =>
      cases l with
      | nil => simp at h
      | cons a t =>
          simp only [List.map_cons, List.cons_append, List.cons.injEq] at h
          obtain ⟨l₁, x, l₂, ht, hm1, hfx, hm2⟩ := ih t h.2
          exact ⟨a :: l₁, x, l₂, by rw [ht, List.cons_append],
            by simp [hm1, h.1], hfx, hm2⟩

/-- Success of the running best for a nonempty candidate list whose per-k
means all exceed the `-1` sentinel: packaged form of `bestFold_spec` over
the `(k, avgSpec k)` pairs. -/
lemma bestFold_avg_spec {α : Type} (o : Oracle α) (met : String) (X : α)
    (rs n : Nat) (kvs : List Nat) (hkvs : kvs ≠ [])
    (hpos : ∀ k ∈ kvs, -1 < avgSpec o met X rs n k) :
    ∃ b, (bestFold (kvs.map fun k => (k, avgSpec o met X rs n k))
        (-1, none)).2 = some b ∧
      b ∈ kvs ∧
      (∀ k ∈ kvs, avgSpec o met X rs n k ≤ avgSpec o met X rs n b) ∧
      ∃ l₁ l₂, kvs = l₁ ++ b :: l₂ ∧
        ∀ k ∈ l₁, avgSpec o met X rs n k < avgSpec o met X rs n b := by
  have hl : (kvs.map fun k => (k, avgSpec o met X rs n k)) ≠ [] := by
    simp [hkvs]
  have hs : ∀ p ∈ kvs.map fun k => (k, avgSpec o met X rs n k),
      (-1 : ℚ) < p.2 := by
    intro p hp
    obtain ⟨k, hk, hpk⟩ := List.mem_map.mp hp
    rw [← hpk]
    exact hpos k hk
  obtain ⟨b, L₁, L₂, hb, hdec, hlt, hle⟩ :=
    bestFold_spec (kvs.map fun k => (k, avgSpec o met X rs n k)) (-1) hl hs
  obtain ⟨l₁, x, l₂, hkdec, hm1, hfx, hm2⟩ :=
    map_eq_append_cons _ kvs L₁ L₂ _ hdec
  rw [Prod.mk.injEq] at hfx
  obtain ⟨hxb, hxm⟩ := hfx
  subst hxb
  have hbmem : x ∈ kvs := by
    rw [hkdec]
    simp
  refine ⟨x, hb, hbmem, ?_, l₁, l₂, hkdec, ?_⟩
  · intro k hk
    have := hle (k, avgSpec o met X rs n k) (List.mem_map.mpr ⟨k, hk, rfl⟩)
    rw [hxm]
    exact this
  · intro k hk
    have hmem1 : (k, avgSpec o met X rs n k) ∈ L₁ := by
      rw [← hm1]
      exact List.mem_map.mpr ⟨k, hk, rfl⟩
    have := hlt _ hmem1
    rw [hxm]
    exact this

lemma metricFn_oracle0_nonneg (met : String) (a b : Partition) :
    (0 : ℚ) ≤ metricFn oracle0 met a b := by
  rw [metricFn]
  by_cases h : met = "rand"
  · rw [if_pos h]
    show (0 : ℚ) ≤ if a = b then 1 else 1 / 2
    split <;> norm_num
  · rw [if_neg h]
    show (0 : ℚ) ≤ if a = b then 1 else 0
    split <;> norm_num

lemma avgSpec_oracle0_two_pos (met : String) (X rs k : Nat) :
    (-1 : ℚ) < avgSpec oracle0 met X rs 2 k := by
  have hpi : pairIndices 2 = [(0, 1)] := rfl
  have hps : pairScoresSpec oracle0 met X rs 2 k =
      [metricFn oracle0 met ((clustersSpec oracle0 X rs 2 k).getD 0 [])
        ((clustersSpec oracle0 X rs 2 k).getD 1 [])] := by
    rw [pairScoresSpec, hpi]
    rfl
  rw [avgSpec, hps]
  have h := metricFn_oracle0_nonneg met
    ((clustersSpec oracle0 X rs 2 k).getD 0 [])
    ((clustersSpec oracle0 X rs 2 k).getD 1 [])
  simp only [List.sum_cons, List.sum_nil, add_zero, List.length_singleton,
    Nat.cast_one, div_one]
  linarith

/-! ### The claims -/

/-- C1: the claim says `predict` before `fit` raises NotFittedError and
`predict` after a successful `fit` returns labels.  The first half holds,
but the second fails on the code: `predict` calls
`check_is_fitted(self, ["best_model"])`, and the attribute `best_model`
is never assigned — `fit` assigns `best_model_` (trailing underscore) — so
`predict` raises NotFittedError even after a successful `fit`.  This
theorem proves the actual behaviour: for any estimator that does not carry
a `best_model` attribute (as built by `__init__`), `predict` returns
NotFittedError both before and after an arbitrary `fit` call. -/
theorem C1_predict_always_not_fitted {α : Type} (o : Oracle α)
    (e : Estimator α) (X Y : α) (h : "best_model" ∉ e.attrs) :
    predict o e Y = .error .notFittedError ∧
    predict o ((fit o e X).est) Y = .error .notFittedError := by
  constructor
  · rw [predict, if_neg h]
  · rw [predict, if_neg (fit_attrs_no_best_model o e X h)]

/-- Witness for C1 at a concrete estimator and dataset. -/
theorem C1_witness :
    predict oracle0 e0 0 = .error .notFittedError ∧
    predict oracle0 ((fit oracle0 e0 0).est) 0 = .error .notFittedError :=
  C1_predict_always_not_fitted oracle0 e0 0 0 (by decide)

/-- C2 counterexample: with duplicated candidates `k_values = [2, 2]` the
ScoreTable (a dict keyed by k) ends with a single entry, not one entry per
element of `k_values` as the claim states. -/
theorem C2_counterexample :
    ((fit oracle0 (init [2, 2] 2 "k-means" "adjusted_rand" 0) 0).est.scores_).length ≠
      [2, 2].length := by
  obtain ⟨h1, -, -, -, -⟩ :=
    fit_spec oracle0 (init [2, 2] 2 "k-means" "adjusted_rand" 0) 0 rfl
      (Or.inr rfl) (by decide)
  have h1' : (fit oracle0 (init [2, 2] 2 "k-means" "adjusted_rand" 0) 0).est.scores_ =
      [2, 2].foldl (fun d k => dictUpdate d k
        (some (avgSpec oracle0 "adjusted_rand" 0 0 2 k))) [] := h1
  rw [h1']
  simp [dictUpdate]

/-- C2 amended: after a `fit` on a freshly constructed estimator (valid
metric, `n_repetitions ≥ 2`), the ScoreTable has exactly one entry per
DISTINCT element of `k_values`, with keys in first-occurrence order
(`insKeys [] k_values`); every element of `k_values` — duplicates
included — is still evaluated independently, performing `n_repetitions`
clustering fits each (`|k_values| * n_repetitions` fits in total). -/
theorem C2_scoretable_per_distinct {α : Type} (o : Oracle α) (kvs : List Nat)
    (n rs : Nat) (met : String) (X : α)
    (hmet : met = "rand" ∨ met = "adjusted_rand") (hn : 2 ≤ n) :
    ((fit o (init kvs n "k-means" met rs) X).est.scores_).map Prod.fst =
      insKeys [] kvs ∧
    (fit o (init kvs n "k-means" met rs) X).nFits = kvs.length * n := by
  obtain ⟨h1, h2, -, -, -⟩ := fit_spec o (init kvs n "k-means" met rs) X rfl hmet hn
  have h1' : (fit o (init (α := α) kvs n "k-means" met rs) X).est.scores_ =
      kvs.foldl (fun d k => dictUpdate d k
        (some (avgSpec o met X rs n k))) [] := h1
  have h2' : (fit o (init (α := α) kvs n "k-means" met rs) X).nFits =
      kvs.length * n := h2
  refine ⟨?_, h2'⟩
  rw [h1', foldl_dictUpdate_keys]
  rfl

/-- Witness for C2 (amended) at concrete inputs with a duplicate. -/
theorem C2_witness :
    ((fit oracle0 (init [2, 2, 3] 2 "k-means" "adjusted_rand" 0) 0).est.scores_).map Prod.fst =
      insKeys [] [2, 2, 3] ∧
    (fit oracle0 (init [2, 2, 3] 2 "k-means" "adjusted_rand" 0) 0).nFits =
      [2, 2, 3].length * 2 :=
  C2_scoretable_per_distinct oracle0 [2, 2, 3] 2 0 "adjusted_rand" 0
    (Or.inr rfl) (by decide)

/-- C3 counterexample: an unsupported metric does NOT fail before clustering
work — the `ValueError` is raised only in the pairwise-scoring loop, after
the first candidate's `n_repetitions = 2` clustering fits have already been
performed (`nFits = 2`, not `0`). -/
theorem C3_counterexample :
    (fit oracle0 (init [2] 2 "k-means" "bogus" 0) 0).err = some .invalidMetric ∧
    (fit oracle0 (init [2] 2 "k-means" "bogus" 0) 0).nFits = 2 := by decide

/-- C3 amended: an unsupported algorithm name raises InvalidAlgorithm before
any clustering fit (`nFits = 0`), but an unsupported metric name raises
InvalidMetric only after the first candidate's `n_repetitions` clustering
fits have been performed (`nFits = n_repetitions`). -/
theorem C3_error_surfacing {α : Type} (o : Oracle α) (kvs : List Nat)
    (n rs : Nat) (alg met : String) (X : α) (k0 : Nat) (rest : List Nat)
    (hkv : kvs = k0 :: rest) :
    (alg ≠ "k-means" → 1 ≤ n →
      (fit o (init kvs n alg met rs) X).err = some .invalidAlgorithm ∧
      (fit o (init kvs n alg met rs) X).nFits = 0) ∧
    (met ≠ "rand" → met ≠ "adjusted_rand" → 2 ≤ n →
      (fit o (init kvs n "k-means" met rs) X).err = some .invalidMetric ∧
      (fit o (init kvs n "k-means" met rs) X).nFits = n) := by
  constructor
  · intro halg hn
    obtain ⟨a1, a2, -⟩ :=
      fit_invalid_algorithm o (init kvs n alg met rs) X halg hn k0 rest hkv
    exact ⟨a1, a2⟩
  · intro h1 h2 hn
    obtain ⟨a1, a2, -⟩ :=
      fit_invalid_metric o (init kvs n "k-means" met rs) X rfl h1 h2 hn
        k0 rest hkv
    exact ⟨a1, a2⟩

/-- Witness for C3 (amended) at concrete bogus names. -/
theorem C3_witness :
    ((fit oracle0 (init [2] 2 "bogus" "adjusted_rand" 0) 0).err =
        some .invalidAlgorithm ∧
      (fit oracle0 (init [2] 2 "bogus" "adjusted_rand" 0) 0).nFits = 0) ∧
    ((fit oracle0 (init [2] 2 "k-means" "bogus" 0) 0).err =
        some .invalidMetric ∧
      (fit oracle0 (init [2] 2 "k-means" "bogus" 0) 0).nFits = 2) :=
  ⟨(C3_error_surfacing oracle0 [2] 2 0 "bogus" "adjusted_rand" 0 2 [] rfl).1
      (by decide) (by decide),
    (C3_error_surfacing oracle0 [2] 2 0 "k-means" "bogus" 0 2 [] rfl).2
      (by decide) (by decide) (by decide)⟩

/-- C4 counterexample: `n_repetitions = 1` does not raise
InvalidConfiguration before any clustering work — the code performs one
clustering fit per candidate (`nFits = 1 ≠ 0`) and then fails with an
`AttributeError` (`best_model` is still `None` at the final refit). -/
theorem C4_counterexample :
    (fit oracle0 (init [2] 1 "k-means" "adjusted_rand" 0) 0).err =
      some .attributeError ∧
    (fit oracle0 (init [2] 1 "k-means" "adjusted_rand" 0) 0).err ≠
      some .invalidConfiguration ∧
    (fit oracle0 (init [2] 1 "k-means" "adjusted_rand" 0) 0).nFits = 1 := by
  decide

/-- C4 amended: `fit` performs no validation of `n_repetitions` or of the
candidate range.  With `n_repetitions = 1` it performs one clustering fit
per candidate (clustering work does happen), records an undefined (NaN)
mean for every candidate, and then fails with an `AttributeError` — never
with InvalidConfiguration, which does not exist in the code. -/
theorem C4_no_validation {α : Type} (o : Oracle α) (kvs : List Nat)
    (rs : Nat) (met : String) (X : α) :
    (fit o (init kvs 1 "k-means" met rs) X).err = some .attributeError ∧
    (fit o (init kvs 1 "k-means" met rs) X).err ≠ some .invalidConfiguration ∧
    (fit o (init kvs 1 "k-means" met rs) X).nFits = kvs.length ∧
    ∀ k ∈ kvs, ((fit o (init kvs 1 "k-means" met rs) X).est.scores_).lookup k =
      some none := by
  obtain ⟨a1, a2, a3, -⟩ :=
    fit_no_pairs o (init kvs 1 "k-means" met rs) X (Nat.le_refl 1) (Or.inr rfl)
  have a2' : (fit o (init (α := α) kvs 1 "k-means" met rs) X).nFits =
      kvs.length * 1 := a2
  have a3' : (fit o (init (α := α) kvs 1 "k-means" met rs) X).est.scores_ =
      kvs.foldl (fun d k => dictUpdate d k none) [] := a3
  refine ⟨a1, ?_, by rw [a2', Nat.mul_one], ?_⟩
  · rw [a1]
    simp
  · intro k hk
    rw [a3', foldl_dictUpdate_lookup (fun _ => none) kvs [] k, if_pos hk]

/-- Witness for C4 (amended) at concrete inputs. -/
theorem C4_witness :
    (fit oracle0 (init [2, 3] 1 "k-means" "adjusted_rand" 0) 0).err =
      some .attributeError ∧
    (fit oracle0 (init [2, 3] 1 "k-means" "adjusted_rand" 0) 0).err ≠
      some .invalidConfiguration ∧
    (fit oracle0 (init [2, 3] 1 "k-means" "adjusted_rand" 0) 0).nFits =
      [2, 3].length ∧
    ((fit oracle0 (init [2, 3] 1 "k-means" "adjusted_rand" 0) 0).est.scores_).lookup 2 =
      some none :=
  have h := C4_no_validation oracle0 [2, 3] 0 "adjusted_rand" 0
  ⟨h.1, h.2.1, h.2.2.1, h.2.2.2 2 (by decide)⟩

/-- C5: after a successful `fit`, the selected `best_k_` is an element of
`k_values` whose average AgreementScore is maximal among all recorded
entries, and ties go to the first-encountered candidate: every candidate
strictly earlier in the sequence has a strictly smaller mean (consequence
of the strict-greater running comparison against the `-1` sentinel).
Every ScoreTable entry is the mean of some candidate, so maximality over
`k_values` is maximality over the table. -/
theorem C5_best_k_first_maximal {α : Type} (o : Oracle α) (kvs : List Nat)
    (n rs : Nat) (met : String) (X : α)
    (hmet : met = "rand" ∨ met = "adjusted_rand") (hn : 2 ≤ n)
    (hkvs : kvs ≠ []) (hpos : ∀ k ∈ kvs, -1 < avgSpec o met X rs n k) :
    ∃ b, (fit o (init kvs n "k-means" met rs) X).err = none ∧
      (fit o (init kvs n "k-means" met rs) X).est.best_k_ = some b ∧
      b ∈ kvs ∧
      (∀ k ∈ kvs, avgSpec o met X rs n k ≤ avgSpec o met X rs n b) ∧
      (∃ l₁ l₂, kvs = l₁ ++ b :: l₂ ∧
        ∀ k ∈ l₁, avgSpec o met X rs n k < avgSpec o met X rs n b) ∧
      ∀ p ∈ (fit o (init kvs n "k-means" met rs) X).est.scores_,
        ∃ k, k ∈ kvs ∧ p = (k, some (avgSpec o met X rs n k)) := by
  obtain ⟨b, hb, hbmem, hmax, hfirst⟩ :=
    bestFold_avg_spec o met X rs n kvs hkvs hpos
  obtain ⟨h1, -, h3, h4, -⟩ :=
    fit_spec o (init kvs n "k-means" met rs) X rfl hmet hn
  have h1' : (fit o (init (α := α) kvs n "k-means" met rs) X).est.scores_ =
      kvs.foldl (fun d k => dictUpdate d k
        (some (avgSpec o met X rs n k))) [] := h1
  have h3' : (fit o (init (α := α) kvs n "k-means" met rs) X).est.best_k_ =
      (bestFold (kvs.map fun k => (k, avgSpec o met X rs n k))
        (-1, none)).2 := h3
  have h4' : (fit o (init (α := α) kvs n "k-means" met rs) X).err = none ↔
      ((bestFold (kvs.map fun k => (k, avgSpec o met X rs n k))
        (-1, none)).2).isSome = true := h4
  refine ⟨b, h4'.mpr (by rw [hb]; rfl), by rw [h3', hb], hbmem, hmax,
    hfirst, ?_⟩
  intro p hp
  rw [h1'] at hp
  rcases foldl_dictUpdate_mem _ kvs [] p hp with h | h
  · simp at h
  · exact h

/-- Witness for C5 at concrete inputs. -/
theorem C5_witness :
    ∃ b, (fit oracle0 (init [2, 3] 2 "k-means" "adjusted_rand" 5) 0).err = none ∧
      (fit oracle0 (init [2, 3] 2 "k-means" "adjusted_rand" 5) 0).est.best_k_ =
        some b ∧
      b ∈ [2, 3] ∧
      (∀ k ∈ [2, 3], avgSpec oracle0 "adjusted_rand" 0 5 2 k ≤
        avgSpec oracle0 "adjusted_rand" 0 5 2 b) ∧
      (∃ l₁ l₂, [2, 3] = l₁ ++ b :: l₂ ∧
        ∀ k ∈ l₁, avgSpec oracle0 "adjusted_rand" 0 5 2 k <
          avgSpec oracle0 "adjusted_rand" 0 5 2 b) ∧
      ∀ p ∈ (fit oracle0 (init [2, 3] 2 "k-means" "adjusted_rand" 5) 0).est.scores_,
        ∃ k, k ∈ [2, 3] ∧
          p = (k, some (avgSpec oracle0 "adjusted_rand" 0 5 2 k)) :=
  C5_best_k_first_maximal oracle0 [2, 3] 2 5 "adjusted_rand" 0 (Or.inr rfl)
    (by decide) (by decide)
    (fun k _ => avgSpec_oracle0_two_pos "adjusted_rand" 0 5 k)

/-- C6: after `fit` (valid configuration), every candidate's ScoreTable
entry is the arithmetic mean of the pairwise AgreementScores over the
`n_repetitions · (n_repetitions − 1) / 2` unordered pairs of the
repetitions' partitions, where repetition `i` is produced with seed
`random_state + i` (this is what `avgSpec` / `pairScoresSpec` /
`clustersSpec` say by definition). -/
theorem C6_scoretable_mean {α : Type} (o : Oracle α) (kvs : List Nat)
    (n rs : Nat) (met : String) (X : α)
    (hmet : met = "rand" ∨ met = "adjusted_rand") (hn : 2 ≤ n) :
    (∀ k ∈ kvs,
      ((fit o (init kvs n "k-means" met rs) X).est.scores_).lookup k =
        some (some (avgSpec o met X rs n k))) ∧
    ∀ k, (pairScoresSpec o met X rs n k).length = n * (n - 1) / 2 := by
  obtain ⟨h1, -, -, -, -⟩ :=
    fit_spec o (init kvs n "k-means" met rs) X rfl hmet hn
  have h1' : (fit o (init (α := α) kvs n "k-means" met rs) X).est.scores_ =
      kvs.foldl (fun d k => dictUpdate d k
        (some (avgSpec o met X rs n k))) [] := h1
  constructor
  · intro k hk
    rw [h1', foldl_dictUpdate_lookup, if_pos hk]
  · intro k
    rw [pairScoresSpec, List.length_map, pairIndices_length]

/-- Witness for C6 at concrete inputs. -/
theorem C6_witness :
    ((fit oracle0 (init [2, 3] 2 "k-means" "adjusted_rand" 0) 0).est.scores_).lookup 2 =
      some (some (avgSpec oracle0 "adjusted_rand" 0 0 2 2)) ∧
    (pairScoresSpec oracle0 "adjusted_rand" 0 0 2 2).length = 2 * (2 - 1) / 2 :=
  have h := C6_scoretable_mean oracle0 [2, 3] 2 0 "adjusted_rand" 0
    (Or.inr rfl) (by decide)
  ⟨h.1 2 (by decide), h.2 2⟩

/-- C7: after a successful `fit`, the stored SelectedModel is a clustering
model with `n_clusters = best_k_`, refitted on the full dataset `X` (the
retained instance is the last repetition's, seed
`random_state + n_repetitions − 1`, and `.fit(X)` reruns it on all of X);
`best_model_` is a single `Option` field, so exactly one SelectedModel is
produced per `fit` call. -/
theorem C7_refit_full_dataset {α : Type} (o : Oracle α) (kvs : List Nat)
    (n rs : Nat) (met : String) (X : α)
    (hmet : met = "rand" ∨ met = "adjusted_rand") (hn : 2 ≤ n)
    (hkvs : kvs ≠ []) (hpos : ∀ k ∈ kvs, -1 < avgSpec o met X rs n k) :
    ∃ b, (fit o (init kvs n "k-means" met rs) X).err = none ∧
      (fit o (init kvs n "k-means" met rs) X).est.best_k_ = some b ∧
      (fit o (init kvs n "k-means" met rs) X).est.best_model_ =
        some { model := { n_clusters := b, random_state := rs + (n - 1) }
               data := X } := by
  obtain ⟨b, hb, -, -, -⟩ := bestFold_avg_spec o met X rs n kvs hkvs hpos
  obtain ⟨-, -, h3, h4, h5⟩ :=
    fit_spec o (init kvs n "k-means" met rs) X rfl hmet hn
  have h3' : (fit o (init (α := α) kvs n "k-means" met rs) X).est.best_k_ =
      (bestFold (kvs.map fun k => (k, avgSpec o met X rs n k))
        (-1, none)).2 := h3
  have h4' : (fit o (init (α := α) kvs n "k-means" met rs) X).err = none ↔
      ((bestFold (kvs.map fun k => (k, avgSpec o met X rs n k))
        (-1, none)).2).isSome = true := h4
  have h5' : ∀ b2, (bestFold (kvs.map fun k => (k, avgSpec o met X rs n k))
        (-1, none)).2 = some b2 →
      (fit o (init (α := α) kvs n "k-means" met rs) X).est.best_model_ =
        some { model := { n_clusters := b2, random_state := rs + (n - 1) }
               data := X } := h5
  exact ⟨b, h4'.mpr (by rw [hb]; rfl), by rw [h3', hb], h5' b hb⟩

/-- Witness for C7 at concrete inputs. -/
theorem C7_witness :
    ∃ b, (fit oracle0 (init [2, 3] 2 "k-means" "adjusted_rand" 5) 0).err = none ∧
      (fit oracle0 (init [2, 3] 2 "k-means" "adjusted_rand" 5) 0).est.best_k_ =
        some b ∧
      (fit oracle0 (init [2, 3] 2 "k-means" "adjusted_rand" 5) 0).est.best_model_ =
        some { model := { n_clusters := b, random_state := 5 + (2 - 1) }
               data := 0 } :=
  C7_refit_full_dataset oracle0 [2, 3] 2 5 "adjusted_rand" 0 (Or.inr rfl)
    (by decide) (by decide)
    (fun k _ => avgSpec_oracle0_two_pos "adjusted_rand" 0 5 k)

/-- C8: `fit` is deterministic — the partitions depend only on
`(X, k, seed)` with seeds `random_state + i`, so a second `fit` call on the
same estimator with the same `X` reproduces exactly the same ScoreTable
(bit-identical values: each key is overwritten with the same mean) and the
same selected k, and both calls succeed. -/
theorem C8_deterministic_refit {α : Type} (o : Oracle α) (kvs : List Nat)
    (n rs : Nat) (met : String) (X : α)
    (hmet : met = "rand" ∨ met = "adjusted_rand") (hn : 2 ≤ n)
    (hkvs : kvs ≠ []) (hpos : ∀ k ∈ kvs, -1 < avgSpec o met X rs n k) :
    (fit o (fit o (init kvs n "k-means" met rs) X).est X).est.scores_ =
      (fit o (init kvs n "k-means" met rs) X).est.scores_ ∧
    (fit o (fit o (init kvs n "k-means" met rs) X).est X).est.best_k_ =
      (fit o (init kvs n "k-means" met rs) X).est.best_k_ ∧
    (fit o (init kvs n "k-means" met rs) X).err = none ∧
    (fit o (fit o (init kvs n "k-means" met rs) X).est X).err = none := by
  obtain ⟨b, hb, -, -, -⟩ := bestFold_avg_spec o met X rs n kvs hkvs hpos
  obtain ⟨h1, -, h3, h4, -⟩ :=
    fit_spec o (init kvs n "k-means" met rs) X rfl hmet hn
  have h1' : (fit o (init (α := α) kvs n "k-means" met rs) X).est.scores_ =
      kvs.foldl (fun d k => dictUpdate d k
        (some (avgSpec o met X rs n k))) [] := h1
  have h3' : (fit o (init (α := α) kvs n "k-means" met rs) X).est.best_k_ =
      (bestFold (kvs.map fun k => (k, avgSpec o met X rs n k))
        (-1, none)).2 := h3
  have h4' : (fit o (init (α := α) kvs n "k-means" met rs) X).err = none ↔
      ((bestFold (kvs.map fun k => (k, avgSpec o met X rs n k))
        (-1, none)).2).isSome = true := h4
  obtain ⟨c1, c2, c3, c4, c5⟩ :=
    fit_config o (init (α := α) kvs n "k-means" met rs) X
  have halg2 : (fit o (init (α := α) kvs n "k-means" met rs) X).est.algorithm =
      "k-means" := c3
  have hkv2 : (fit o (init (α := α) kvs n "k-means" met rs) X).est.k_values =
      kvs := c1
  have hmt2 : (fit o (init (α := α) kvs n "k-means" met rs) X).est.metric =
      met := c4
  have hn2 : (fit o (init (α := α) kvs n "k-means" met rs) X).est.n_repetitions =
      n := c2
  have hrs2 : (fit o (init (α := α) kvs n "k-means" met rs) X).est.random_state =
      rs := c5
  obtain ⟨g1, -, g3, g4, -⟩ :=
    fit_spec o (fit o (init (α := α) kvs n "k-means" met rs) X).est X halg2
      (by rw [hmt2]; exact hmet) (by rw [hn2]; exact hn)
  rw [hkv2, hmt2, hn2, hrs2] at g1 g3 g4
  have hlook : ∀ k ∈ kvs,
      ((fit o (init (α := α) kvs n "k-means" met rs) X).est.scores_).lookup k =
        some (some (avgSpec o met X rs n k)) := by
    intro k hk
    rw [h1', foldl_dictUpdate_lookup, if_pos hk]
  have hid := foldl_dictUpdate_id
    (fun k => some (avgSpec o met X rs n k)) kvs
    ((fit o (init (α := α) kvs n "k-means" met rs) X).est.scores_) hlook
  exact ⟨g1.trans hid, g3.trans h3'.symm, h4'.mpr (by rw [hb]; rfl),
    g4.mpr (by rw [hb]; rfl)⟩

/-- Witness for C8 at concrete inputs. -/
theorem C8_witness :
    (fit oracle0 (fit oracle0 (init [2, 3] 2 "k-means" "adjusted_rand" 5) 0).est 0).est.scores_ =
      (fit oracle0 (init [2, 3] 2 "k-means" "adjusted_rand" 5) 0).est.scores_ ∧
    (fit oracle0 (fit oracle0 (init [2, 3] 2 "k-means" "adjusted_rand" 5) 0).est 0).est.best_k_ =
      (fit oracle0 (init [2, 3] 2 "k-means" "adjusted_rand" 5) 0).est.best_k_ ∧
    (fit oracle0 (init [2, 3] 2 "k-means" "adjusted_rand" 5) 0).err = none ∧
    (fit oracle0 (fit oracle0 (init [2, 3] 2 "k-means" "adjusted_rand" 5) 0).est 0).err = none :=
  C8_deterministic_refit oracle0 [2, 3] 2 5 "adjusted_rand" 0 (Or.inr rfl)
    (by decide) (by decide)
    (fun k _ => avgSpec_oracle0_two_pos "adjusted_rand" 0 5 k)

/-- C9: the ScoreTable is created once in `__init__` and never cleared by
`fit` — `fit` only writes keys from its `k_values`, so an entry whose key
does not occur in a later call's candidate list is still visible (unchanged)
after that call, whatever path the call takes. -/
theorem C9_scores_persist {α : Type} (o : Oracle α) (e : Estimator α)
    (X : α) (k : Nat) (hk : k ∉ e.k_values) :
    ((fit o e X).est.scores_).lookup k = e.scores_.lookup k :=
  fit_lookup_not_mem o e X k hk

/-- Witness for C9: an estimator fitted on `[2]`, then refitted with
`k_values = [3]`; the entry for `2` survives the second call. -/
theorem C9_witness :
    ((fit oracle0 e1 0).est.scores_).lookup 2 = e1.scores_.lookup 2 :=
  C9_scores_persist oracle0 e1 0 2 (by decide)

/-- C10: with `n_repetitions = 0` and any algorithm/metric strings —
including unsupported ones — `fit` raises neither InvalidAlgorithm nor
InvalidMetric (both checks sit inside loops that run zero times); it
records an undefined (NaN) mean for every candidate and then fails with an
unrelated `AttributeError` at the final refit, having performed zero
clustering fits. -/
theorem C10_zero_repetitions {α : Type} (o : Oracle α) (kvs : List Nat)
    (rs : Nat) (alg met : String) (X : α) :
    (fit o (init kvs 0 alg met rs) X).err = some .attributeError ∧
    (fit o (init kvs 0 alg met rs) X).err ≠ some .invalidAlgorithm ∧
    (fit o (init kvs 0 alg met rs) X).err ≠ some .invalidMetric ∧
    (fit o (init kvs 0 alg met rs) X).nFits = 0 ∧
    ∀ k ∈ kvs, ((fit o (init kvs 0 alg met rs) X).est.scores_).lookup k =
      some none := by
  obtain ⟨a1, a2, a3, -⟩ :=
    fit_no_pairs o (init kvs 0 alg met rs) X (Nat.zero_le 1) (Or.inl rfl)
  have a2' : (fit o (init (α := α) kvs 0 alg met rs) X).nFits =
      kvs.length * 0 := a2
  have a3' : (fit o (init (α := α) kvs 0 alg met rs) X).est.scores_ =
      kvs.foldl (fun d k => dictUpdate d k none) [] := a3
  refine ⟨a1, by rw [a1]; simp, by rw [a1]; simp,
    by rw [a2', Nat.mul_zero], ?_⟩
  intro k hk
  rw [a3', foldl_dictUpdate_lookup (fun _ => none) kvs [] k, if_pos hk]

/-- Witness for C10 at concrete bogus names. -/
theorem C10_witness :
    (fit oracle0 (init [2] 0 "bogus" "bogus" 7) 0).err = some .attributeError ∧
    (fit oracle0 (init [2] 0 "bogus" "bogus" 7) 0).err ≠ some .invalidAlgorithm ∧
    (fit oracle0 (init [2] 0 "bogus" "bogus" 7) 0).err ≠ some .invalidMetric ∧
    (fit oracle0 (init [2] 0 "bogus" "bogus" 7) 0).nFits = 0 ∧
    ((fit oracle0 (init [2] 0 "bogus" "bogus" 7) 0).est.scores_).lookup 2 =
      some none :=
  have h := C10_zero_repetitions oracle0 [2] 7 "bogus" "bogus" 0
  ⟨h.1, h.2.1, h.2.2.1, h.2.2.2.1, h.2.2.2.2 2 (by decide)⟩

end StableClustering
